import Mathlib

/-!
# Verification of the `just-do-it` TUI core

Shallow embedding of the interactive state machine of the `just`
task-runner front-end: parameter-form finalization, the pinned-AI-entry
list filter, credential resolution, the streaming generation pipeline,
and focus navigation, together with theorems settling the specification
claims about them.
-/

namespace JustDoIt

/-- Go `unicode.IsSpace` on the Latin-1 range (space, `\t`, `\n`, `\v`,
`\f`, `\r`, NEL, NBSP); the program only ever splits ASCII shell text. -/
def isGoSpace (c : Char) : Bool :=
  c = ' ' || c = '\t' || c = '\n' || c = Char.ofNat 11 || c = Char.ofNat 12 ||
    c = '\r' || c = Char.ofNat 0x85 || c = Char.ofNat 0xA0

/-- Worker for `goFields`: `acc` holds the characters of the current field
in reverse order. -/
def goFieldsAux : List Char → List Char → List String
  | [], acc => if acc.isEmpty then [] else [String.mk acc.reverse]
  | c :: cs, acc =>
    if isGoSpace c then
      if acc.isEmpty then goFieldsAux cs []
      else String.mk acc.reverse :: goFieldsAux cs []
    else goFieldsAux cs (c :: acc)

/-- Go `strings.Fields`: split around runs of whitespace, producing no
empty fields. -/
def goFields (s : String) : List String :=
  goFieldsAux s.data []

/-- A `just` recipe parameter (`Parameter` in part_000): name, nullable
default, and kind string (`"singular"`, `"plus"` or `"star"` in the
`just --dump` JSON). -/
structure Parameter where
  name : String
  default : Option String
  kind : String
deriving DecidableEq, Repr

/-- Arguments contributed by one form field at finalization
(part_000 lines 535-545): an empty value with a declared default is
replaced by the default, then `plus`/`star` kinds are whitespace-split
via `strings.Fields`, any other kind contributes the value as one
argument. -/
def fieldArgs (p : Parameter) (v : String) : List String :=
  let val := if v = "" then p.default.getD v else v
  if p.kind = "plus" ∨ p.kind = "star" then goFields val else [val]

/-- The full per-field argument list of a submitted form, in parameter
order (the loop at part_000 lines 534-545; the form always has exactly
one input per parameter). -/
def buildArgs (ps : List Parameter) (vs : List String) : List String :=
  (ps.zip vs).flatMap fun pv => fieldArgs pv.1 pv.2

/-- Final command assembly on submitting the last field
(part_000 lines 547-552).  A recipe named `"AI Command"` yields
`["sh", "-c", args[0]]`; the Go code indexes `args[0]` unconditionally,
so an empty argument list there would panic, modelled as `none`.  Any
other name yields `["just", name]` followed by the built arguments. -/
def finalCmdFor (name : String) (ps : List Parameter) (vs : List String) :
    Option (List String) :=
  let args := buildArgs ps vs
  if name = "AI Command" then
    args.head?.map fun a => ["sh", "-c", a]
  else
    some ("just" :: name :: args)

/-- The claim's own wording of per-field argument construction: an empty
field whose parameter has a default is replaced by that default, a field
of a variadic (`plus` or `star`) parameter is split on whitespace into
multiple positional arguments, a singular parameter's field stays
exactly one argument. -/
def specFieldArgs (p : Parameter) (v : String) : List String :=
  let val :=
    match p.default with
    | some d => if v = "" then d else v
    | none => v
  if p.kind = "plus" ∨ p.kind = "star" then goFields val else [val]

/-! ## The pinned-AI-entry list filter (part_000 lines 187-211) -/

/-- One result of the external fuzzy matcher `fuzzy.Find`
(github.com/sahilm/fuzzy): the index of the matched target and the
character positions that matched.  The matcher itself is an external
library, abstracted as a function below. -/
structure FuzzyMatch where
  index : Nat
  matchedIndexes : List Nat
deriving DecidableEq, Repr

/-- A `list.Rank` as produced by the custom filter: target index plus
matched character indexes. -/
structure Rank where
  index : Nat
  matchedIndexes : List Nat
deriving DecidableEq, Repr

/-- The custom `m.list.Filter` (part_000 lines 187-211), parameterized by
the external fuzzy matcher `find`: with no targets it returns nothing;
otherwise it fuzzy-matches the term against all targets except the last
(the synthetic AI item), converts each match to a rank, and always
appends a rank for the last target with no matched indexes. -/
def listFilter (find : String → List String → List FuzzyMatch)
    (term : String) (targets : List String) : List Rank :=
  if targets.length = 0 then []
  else
    let realTargets := targets.dropLast
    let found := find term realTargets
    (found.map fun mt => (⟨mt.index, mt.matchedIndexes⟩ : Rank)) ++
      [⟨targets.length - 1, []⟩]

/-! ## Credential resolution (part_001 lines 29-37; part_000 lines 417-445) -/

/-- Key resolution inside `GenerateCommand` (part_001 lines 29-37): the
provider's environment variable is taken first; only if it is empty is
the persisted config-file value used. -/
def generateKeyResolve (env file : String) : String :=
  if env = "" then file else env

/-- Key resolution on confirming in the provider-select view
(part_000 lines 422-433): the persisted config-file value is taken
first; only if it is empty is the environment variable used. -/
def providerSelectKeyResolve (env file : String) : String :=
  if file = "" then env else file

/-! ## Streaming generation (part_000 lines 295-318, 586-618) -/

/-- A message on the generation stream channel (`streamResult` in
part_000): an incremental chunk, an error, or the done sentinel. -/
structure StreamResult where
  chunk : String
  err : Option String
  done : Bool
deriving DecidableEq, Repr

/-- A chunk message as sent by the producer goroutine
(`streamResult{chunk: s}`). -/
def mkChunk (s : String) : StreamResult := ⟨s, none, false⟩

/-- The done sentinel as sent by the producer goroutine
(`streamResult{done: true}`). -/
def mkDone : StreamResult := ⟨"", none, true⟩

/-- An error message as sent by the producer goroutine
(`streamResult{err: e}`). -/
def mkErr (e : String) : StreamResult := ⟨"", some e, false⟩

/-- The sequence of messages the generation goroutine
(part_000 lines 302-312) sends on the channel: every streamed token as a
chunk, then — if `GenerateCommand` returned an error — one error
message, then unconditionally one done message before the channel is
closed. -/
def producerEmits (chunks : List String) (err : Option String) :
    List StreamResult :=
  chunks.map mkChunk ++
    (match err with
     | some e => [mkErr e]
     | none => []) ++ [mkDone]

/-! ## The view state machine (`model.Update` in part_000)

The reduced model below carries exactly the fields of the Go `model`
struct that the claims under verification observe; the branches of
`Update` they cite are embedded faithfully, and key inputs outside those
branches leave the model unchanged.  A text input's focus is represented
by `focusIndex` alone: the input at the focus index is the focused one,
all others are blurred (mirroring the Focus/Blur calls). -/

/-- The view states (`state` constants in part_000 lines 42-50). -/
inductive View
  | list | input | generating | apiKeyInput | providerSelect | modelInput
  | modelSelect
deriving DecidableEq, Repr

/-- Read-only environment of a run: the two provider environment
variables and the two persisted config-file keys. -/
structure Env where
  envGoogleKey : String
  envOpenAIKey : String
  cfgGoogleKey : String
  cfgOpenAIKey : String
deriving DecidableEq, Repr

/-- The observable slice of the Go `model` struct. `pendingListModels`
records the in-flight `ListModels` command (provider, key) issued by
`tea.Batch`, `finalCmd` the final argument vector once set. -/
structure M where
  view : View
  focusIndex : Int
  providerIndex : Nat
  inputs : List String
  recipeName : String
  recipeParams : List Parameter
  streamContent : String
  err : Option String
  finalCmd : Option (List String)
  pendingListModels : Option (String × String)
  modelItems : List String
deriving DecidableEq, Repr

/-- Key presses distinguished by the branches under verification. -/
inductive Key
  | tab | shiftTab | up | down | enter | esc | other (s : String)
deriving DecidableEq, Repr

/-- Focus cycling for tab / shift+tab / up / down in the parameter form
(part_000 lines 389-400): decrement on a retreating key, increment
otherwise, then clamp past-the-end to `0` and below-zero to
`count - 1`. -/
def cycleFocus (retreat : Bool) (idx count : Int) : Int :=
  let j := if retreat then idx - 1 else idx + 1
  if j > count - 1 then 0
  else if j < 0 then count - 1
  else j

/-- The credential resolved on provider-select confirm
(part_000 lines 422-433): Google's config/env pair for provider index
`0`, OpenAI's otherwise. -/
def resolvedKey (env : Env) (providerIndex : Nat) : String :=
  if providerIndex = 0 then
    providerSelectKeyResolve env.envGoogleKey env.cfgGoogleKey
  else
    providerSelectKeyResolve env.envOpenAIKey env.cfgOpenAIKey

/-- Provider identifier passed to `ListModels`
(part_000 lines 449-452): `"openai"` for index `1`, `"google"`
otherwise. -/
def providerName (providerIndex : Nat) : String :=
  if providerIndex = 1 then "openai" else "google"

/-- The provider-select branch of the key handler
(part_000 lines 413-465): enter resolves a credential for the chosen
provider and either opens the masked key input or starts the
model-listing attempt; other keys are outside the claims' scope. -/
def updateKeyProviderSelect (env : Env) (m : M) (k : Key) : M :=
  match k with
  | .enter =>
    let key := resolvedKey env m.providerIndex
    if key = "" then
      { m with view := .apiKeyInput, inputs := [""], focusIndex := 0 }
    else
      { m with view := .generating,
               pendingListModels := some (providerName m.providerIndex, key) }
  | _ => m

/-- The parameter-form branch of the key handler (part_000 lines
372-410, 526-553): tab / shift+tab / up / down cycle the focus, enter on
a non-last field advances the focus, enter on the last field finalizes,
esc discards the form. -/
def updateKeyInput (m : M) (k : Key) : M :=
  match k with
  | .tab => { m with focusIndex := cycleFocus false m.focusIndex m.inputs.length }
  | .down => { m with focusIndex := cycleFocus false m.focusIndex m.inputs.length }
  | .shiftTab => { m with focusIndex := cycleFocus true m.focusIndex m.inputs.length }
  | .up => { m with focusIndex := cycleFocus true m.focusIndex m.inputs.length }
  | .enter =>
    if m.focusIndex < (m.inputs.length : Int) - 1 then
      { m with focusIndex := m.focusIndex + 1 }
    else
      { m with finalCmd := finalCmdFor m.recipeName m.recipeParams m.inputs }
  | .esc => { m with view := .list, inputs := [] }
  | _ => m

/-- The `tea.KeyMsg` branches of `model.Update` cited by the claims.
Every key press first clears `m.err` (part_000 lines 276-278), then the
branch for the current view runs. -/
def updateKey (env : Env) (m : M) (k : Key) : M :=
  let m := { m with err := none }
  match m.view with
  | .providerSelect => updateKeyProviderSelect env m k
  | .input => updateKeyInput m k
  | _ => m

/-- The `aiCompletionMsg` branch (part_000 lines 605-618): enter the
parameter form for a synthetic recipe named `"AI Command"` with one
parameter `command` (no default, zero-value kind), its single field
pre-filled with the generated text and focused. -/
def applyAiCompletion (m : M) (text : String) : M :=
  { m with view := .input,
           recipeName := "AI Command",
           recipeParams := [⟨"command", none, ""⟩],
           inputs := [text],
           focusIndex := 0 }

/-- Result of one `streamResult` event (part_000 lines 586-603):
the next model, the payload of the `aiCompletionMsg` command emitted on
done, and whether the consumer re-arms `waitForStream`. -/
structure StreamStep where
  next : M
  completion : Option String
  rearm : Bool
deriving DecidableEq, Repr

/-- The `streamResult` branch of `model.Update`
(part_000 lines 586-603): the missing-credential sentinel error routes
to provider select with no error shown; any other error records a
dismissible `AI Error:` message and returns to the list; done emits
`aiCompletionMsg` with the accumulated content; a chunk is appended to
the accumulator and the consumer waits for the next message. -/
def updateStream (m : M) (r : StreamResult) : StreamStep :=
  match r.err with
  | some e =>
    if e = "MISSING_API_KEY" then
      ⟨{ m with view := .providerSelect, err := none, providerIndex := 0 },
        none, false⟩
    else
      ⟨{ m with err := some ("AI Error: " ++ e), view := .list }, none, false⟩
  | none =>
    if r.done then ⟨m, some m.streamContent, false⟩
    else ⟨{ m with streamContent := m.streamContent ++ r.chunk }, none, true⟩

/-- The event loop's consumption of one generation stream: drain one
message at a time, immediately delivering the `aiCompletionMsg` produced
on done, and stop as soon as the consumer does not re-arm. -/
def consumeStream (m : M) : List StreamResult → M
  | [] => m
  | r :: rs =>
    let st := updateStream m r
    match st.completion with
    | some text => applyAiCompletion st.next text
    | none => if st.rearm then consumeStream st.next rs else st.next

/-- The `modelsFetchedMsg` branch (part_000 lines 662-695): enter the
model-select view with the fetched names as the list items. -/
def updateModelsFetched (m : M) (names : List String) : M :=
  { m with view := .modelSelect, modelItems := names }

/-- The `error` branch (part_000 lines 697-717): the missing-credential
sentinel routes to provider select; `list_models_failed` falls back to
the free-text model input with the error cleared; anything else is
recorded as the dismissible error. -/
def updateError (m : M) (e : String) : M :=
  if e = "MISSING_API_KEY" then
    { m with view := .providerSelect, err := none, providerIndex := 0 }
  else if e = "list_models_failed" then
    { m with view := .modelInput, inputs := [""], focusIndex := 0, err := none }
  else
    { m with err := some e }

/-- Concatenation of a list of strings in order. -/
def concatAll (l : List String) : String :=
  l.foldr (fun a b => a ++ b) ""

/-! ## Claim theorems -/

theorem fieldArgs_eq_specFieldArgs (p : Parameter) (v : String) :
    fieldArgs p v = specFieldArgs p v := by
  unfold fieldArgs specFieldArgs
  cases p.default <;> by_cases hv : v = "" <;> simp [hv, Option.getD]

/-- C1 counterexample: the claim quantifies over every task with a
non-empty parameter list, but a task named `"AI Command"` — the name the
finalizer compares against — yields the shell invocation, not
`["just", name, ...]`. -/
theorem C1_counterexample :
    finalCmdFor "AI Command" [⟨"command", none, ""⟩] ["echo hi"] =
      some ["sh", "-c", "echo hi"] ∧
    finalCmdFor "AI Command" [⟨"command", none, ""⟩] ["echo hi"] ≠
      some ["just", "AI Command", "echo hi"] := by
  decide

/-- C1 (amended): for every task whose name is not `"AI Command"`,
submitting the parameter form on the last field produces
`["just", name]` followed by the per-field arguments in parameter
order — an empty field with a default is replaced by the default, a
`plus`/`star` field is whitespace-split into several positional
arguments (`"a b  c"` yields `"a"`, `"b"`, `"c"`), and a singular field
stays exactly one argument. -/
theorem C1_submit_builds_runner_vector :
    (∀ (name : String) (ps : List Parameter) (vs : List String),
      name ≠ "AI Command" →
      finalCmdFor name ps vs =
        some ("just" :: name ::
          (ps.zip vs).flatMap fun pv => specFieldArgs pv.1 pv.2)) ∧
    specFieldArgs ⟨"files", none, "plus"⟩ "a b  c" = ["a", "b", "c"] ∧
    specFieldArgs ⟨"files", none, "star"⟩ "a b  c" = ["a", "b", "c"] ∧
    specFieldArgs ⟨"file", none, "singular"⟩ "a b  c" = ["a b  c"] := by
  refine ⟨?_, by decide, by decide, by decide⟩
  intro name ps vs h
  simp only [finalCmdFor, buildArgs, if_neg h, fieldArgs_eq_specFieldArgs]

/-- C1 witness: a concrete task (not named `"AI Command"`) with a
variadic and a defaulted singular parameter. -/
theorem C1_witness :
    ("build" : String) ≠ "AI Command" ∧
    finalCmdFor "build"
        [⟨"targets", none, "star"⟩, ⟨"mode", some "debug", "singular"⟩]
        ["a b  c", ""] =
      some ["just", "build", "a", "b", "c", "debug"] := by
  refine ⟨by decide, ?_⟩
  rw [C1_submit_builds_runner_vector.1 "build"
    [⟨"targets", none, "star"⟩, ⟨"mode", some "debug", "singular"⟩]
    ["a b  c", ""] (by decide)]
  decide

/-- C3 counterexample: with both the environment variable and the
config-file value set and no session value, the provider-select
confirmation path resolves the config-file value, not the environment
value as the claim requires of every resolution site. -/
theorem C3_counterexample :
    providerSelectKeyResolve "env-key" "file-key" = "file-key" ∧
    ("file-key" : String) ≠ "env-key" := by
  decide

/-- C3 (amended): the two resolution sites disagree — `GenerateCommand`
resolves the environment variable before the config-file value, while
the provider-select confirmation path resolves the config-file value
before the environment variable; a session-entered key is persisted to
the config file and used directly rather than layered. -/
theorem C3_resolution_order_per_path :
    (∀ env file : String, env ≠ "" → generateKeyResolve env file = env) ∧
    (∀ file : String, generateKeyResolve "" file = file) ∧
    (∀ env file : String, file ≠ "" → providerSelectKeyResolve env file = file) ∧
    (∀ env : String, providerSelectKeyResolve env "" = env) := by
  refine ⟨?_, ?_, ?_, ?_⟩ <;>
    intros <;>
    simp [generateKeyResolve, providerSelectKeyResolve, *]

/-- C3 witness: both values set — the generation path returns the
environment value, the provider-select path the file value. -/
theorem C3_witness :
    (("E" : String) ≠ "" ∧ generateKeyResolve "E" "F" = "E") ∧
    (("F" : String) ≠ "" ∧ providerSelectKeyResolve "E" "F" = "F") :=
  ⟨⟨by decide, C3_resolution_order_per_path.1 "E" "F" (by decide)⟩,
   ⟨by decide, C3_resolution_order_per_path.2.2.1 "E" "F" (by decide)⟩⟩

/-- C4 counterexample: an empty field of a variadic (`star`) parameter
with no default contributes no argument at all — the final vector is
`["just", "deploy"]`, not `["just", "deploy", ""]` as the claim's
"for every parameter kind" requires. -/
theorem C4_counterexample :
    buildArgs [⟨"files", none, "star"⟩] [""] = [] ∧
    finalCmdFor "deploy" [⟨"files", none, "star"⟩] [""] =
      some ["just", "deploy"] ∧
    finalCmdFor "deploy" [⟨"files", none, "star"⟩] [""] ≠
      some ["just", "deploy", ""] := by
  decide

/-- C4 (amended): an empty field whose parameter has no default
contributes one empty-string argument when the kind is not variadic,
and no argument at all when the kind is `plus` or `star`; in every case
the form is accepted — finalization produces a command for every task
not named `"AI Command"`. -/
theorem C4_empty_field_contribution :
    (∀ p : Parameter, p.default = none →
      ¬(p.kind = "plus" ∨ p.kind = "star") → fieldArgs p "" = [""]) ∧
    (∀ p : Parameter, p.default = none →
      (p.kind = "plus" ∨ p.kind = "star") → fieldArgs p "" = []) ∧
    (∀ (name : String) (ps : List Parameter) (vs : List String),
      name ≠ "AI Command" → (finalCmdFor name ps vs).isSome = true) := by
  refine ⟨?_, ?_, ?_⟩
  · intro p hd hk
    simp [fieldArgs, hd, hk]
  · intro p hd hk
    simp [fieldArgs, hd, hk]
    decide
  · intro name ps vs h
    simp [finalCmdFor, if_neg h]

/-- C2: for every filter text, the ranked result equals the fuzzy-match
ranking of the real targets (all entries except the last, synthetic AI
one) unchanged in order and match indices, followed by the AI entry's
rank in last position; the AI entry's index occurs exactly once.  The
external fuzzy matcher is abstracted as `find`, assumed (as documented
for `fuzzy.Find`) to return indices into its input list. -/
theorem C2_filter_pins_ai_entry_last
    (find : String → List String → List FuzzyMatch)
    (term : String) (targets : List String)
    (hne : targets ≠ [])
    (hidx : ∀ mt ∈ find term targets.dropLast,
      mt.index < targets.length - 1) :
    listFilter find term targets =
      (find term targets.dropLast).map
        (fun mt => (⟨mt.index, mt.matchedIndexes⟩ : Rank)) ++
        [⟨targets.length - 1, []⟩] ∧
    (listFilter find term targets).getLast? =
      some ⟨targets.length - 1, []⟩ ∧
    (listFilter find term targets).dropLast =
      (find term targets.dropLast).map
        (fun mt => (⟨mt.index, mt.matchedIndexes⟩ : Rank)) ∧
    (listFilter find term targets).countP
      (fun r => r.index == targets.length - 1) = 1 := by
  have hlen : targets.length ≠ 0 := by
    simpa [List.length_eq_zero] using hne
  have heq : listFilter find term targets =
      (find term targets.dropLast).map
        (fun mt => (⟨mt.index, mt.matchedIndexes⟩ : Rank)) ++
        [⟨targets.length - 1, []⟩] := by
    simp [listFilter, if_neg hlen, hne]
  refine ⟨heq, ?_, ?_, ?_⟩
  · rw [heq, List.getLast?_concat]
  · rw [heq, List.dropLast_concat]
  · rw [heq, List.countP_append]
    have h0 : ((find term targets.dropLast).map
        (fun mt => (⟨mt.index, mt.matchedIndexes⟩ : Rank))).countP
        (fun r => r.index == targets.length - 1) = 0 := by
      rw [List.countP_eq_zero]
      intro r hr
      obtain ⟨mt, hmt, hr'⟩ := List.mem_map.mp hr
      have := hidx mt hmt
      subst hr'
      simp only [beq_iff_eq]
      omega
    rw [h0]
    simp

/-- C2 witness: a three-recipe catalog plus the trailing AI entry, with
a concrete matcher returning one in-range match. -/
theorem C2_witness :
    (["build", "deploy", "hello", ""] : List String) ≠ [] ∧
    listFilter (fun _ _ => [⟨0, [0]⟩]) "b" ["build", "deploy", "hello", ""] =
      [⟨0, [0]⟩, ⟨3, []⟩] ∧
    (listFilter (fun _ _ => [⟨0, [0]⟩]) "b"
      ["build", "deploy", "hello", ""]).getLast? = some ⟨3, []⟩ := by
  refine ⟨by decide, ?_, ?_⟩
  · rw [(C2_filter_pins_ai_entry_last (fun _ _ => [⟨0, [0]⟩]) "b"
      ["build", "deploy", "hello", ""] (by decide) (by decide)).1]
    decide
  · rw [(C2_filter_pins_ai_entry_last (fun _ _ => [⟨0, [0]⟩]) "b"
      ["build", "deploy", "hello", ""] (by decide) (by decide)).2.1]
    decide

/-- C5 counterexample: after a failed generation the goroutine sends an
error message and then still sends the done sentinel, so one generation
emits both an error and a done message, contradicting the claim that an
error is followed by nothing further. -/
theorem C5_counterexample :
    producerEmits [] (some "connection refused") =
      [mkErr "connection refused", mkDone] ∧
    mkErr "connection refused" ∈ producerEmits [] (some "connection refused") ∧
    mkDone ∈ producerEmits [] (some "connection refused") := by
  decide

/-- C5 (amended): the producer emits all chunks, then on failure exactly
one error message, then in every case exactly one done message before
closing the channel — so a failed generation emits an error followed by
a done; the consumer never re-arms after receiving an error, so that
trailing done is never consumed. -/
theorem C5_producer_terminal_messages :
    (∀ chunks : List String,
      producerEmits chunks none = chunks.map mkChunk ++ [mkDone]) ∧
    (∀ (chunks : List String) (e : String),
      producerEmits chunks (some e) =
        chunks.map mkChunk ++ [mkErr e, mkDone]) ∧
    (∀ (chunks : List String) (err : Option String),
      (producerEmits chunks err).count mkDone = 1) ∧
    (∀ (m : M) (c e : String) (d : Bool),
      (updateStream m ⟨c, some e, d⟩).rearm = false) := by
  have hchunks : ∀ chunks : List String,
      (chunks.map mkChunk).count mkDone = 0 := by
    intro chunks
    rw [List.count_eq_zero]
    intro h
    obtain ⟨s, _, hs⟩ := List.mem_map.mp h
    simp [mkChunk, mkDone] at hs
  refine ⟨?_, ?_, ?_, ?_⟩
  · intro chunks
    simp [producerEmits]
  · intro chunks e
    simp [producerEmits]
  · intro chunks err
    cases err with
    | none =>
      simp [producerEmits, List.count_append, hchunks, List.count_cons]
    | some e =>
      have h1 : producerEmits chunks (some e) =
          chunks.map mkChunk ++ [mkErr e, mkDone] := by
        simp [producerEmits]
      rw [h1, List.count_append, hchunks]
      simp [mkErr, mkDone, List.count_cons]
  · intro m c e d
    by_cases h : e = "MISSING_API_KEY" <;>
      simp [updateStream, h]

/-- C4 witness: concrete singular and variadic parameters without
defaults, both with empty fields, and an accepted finalization. -/
theorem C4_witness :
    ((⟨"file", none, "singular"⟩ : Parameter).default = none ∧
      fieldArgs ⟨"file", none, "singular"⟩ "" = [""]) ∧
    ((⟨"files", none, "star"⟩ : Parameter).default = none ∧
      fieldArgs ⟨"files", none, "star"⟩ "" = []) ∧
    (finalCmdFor "diff" [⟨"file", none, "singular"⟩] [""]).isSome = true :=
  ⟨⟨rfl, C4_empty_field_contribution.1 ⟨"file", none, "singular"⟩ rfl (by decide)⟩,
   ⟨rfl, C4_empty_field_contribution.2.1 ⟨"files", none, "star"⟩ rfl (by decide)⟩,
   C4_empty_field_contribution.2.2 "diff" [⟨"file", none, "singular"⟩] [""] (by decide)⟩

/-- C6: in `Generating`, a stream error carrying the missing-credential
sentinel transitions to `ProviderSelect` with no error shown; any other
stream error records the dismissible `AI Error:` message and transitions
to `List`; any key press while in `List` leaves the error cleared. -/
theorem C6_stream_error_routing
    (m : M) (c : String) (d : Bool) (hgen : m.view = .generating) :
    ((updateStream m ⟨c, some "MISSING_API_KEY", d⟩).next.view =
        .providerSelect ∧
      (updateStream m ⟨c, some "MISSING_API_KEY", d⟩).next.err = none) ∧
    (∀ e : String, e ≠ "MISSING_API_KEY" →
      (updateStream m ⟨c, some e, d⟩).next.view = .list ∧
      (updateStream m ⟨c, some e, d⟩).next.err =
        some ("AI Error: " ++ e)) ∧
    (∀ (env : Env) (m2 : M) (k : Key), m2.view = .list →
      (updateKey env m2 k).err = none) := by
  refine ⟨⟨?_, ?_⟩, ?_, ?_⟩
  · simp [updateStream]
  · simp [updateStream]
  · intro e he
    constructor <;> simp [updateStream, if_neg he]
  · intro env m2 k h
    rcases m2 with ⟨v, fi, pi, inp, rn, rp, sc, er, fc, plm, mi⟩
    simp only at h
    subst h
    cases k <;> rfl

/-- C6 witness: a generating model receiving the sentinel error and a
generic error, then a key press in `List`. -/
theorem C6_witness :
    (updateStream ⟨.generating, 0, 0, [], "", [], "", none, none, none, []⟩
        ⟨"", some "MISSING_API_KEY", false⟩).next.view = .providerSelect ∧
    (updateStream ⟨.generating, 0, 0, [], "", [], "", none, none, none, []⟩
        ⟨"", some "boom", false⟩).next.err = some ("AI Error: " ++ "boom") ∧
    (updateKey ⟨"", "", "", ""⟩
        ⟨.list, 0, 0, [], "", [], "", some "AI Error: boom", none, none, []⟩
        (.other "x")).err = none :=
  ⟨(C6_stream_error_routing _ "" false rfl).1.1,
   ((C6_stream_error_routing
      ⟨.generating, 0, 0, [], "", [], "", none, none, none, []⟩ "" false
      rfl).2.1 "boom" (by decide)).2,
   (C6_stream_error_routing
      ⟨.generating, 0, 0, [], "", [], "", none, none, none, []⟩ "" false
      rfl).2.2 ⟨"", "", "", ""⟩ _ (.other "x") rfl⟩

theorem consumeStream_chunks (cs : List String) (m : M) :
    consumeStream m (cs.map mkChunk ++ [mkDone]) =
      applyAiCompletion
        { m with streamContent := m.streamContent ++ concatAll cs }
        (m.streamContent ++ concatAll cs) := by
  induction cs generalizing m with
  | nil =>
    simp [consumeStream, updateStream, mkDone, concatAll,
      String.append_empty]
  | cons c cs ih =>
    have hstep : consumeStream m ((c :: cs).map mkChunk ++ [mkDone]) =
        consumeStream { m with streamContent := m.streamContent ++ c }
          (cs.map mkChunk ++ [mkDone]) := by
      simp [consumeStream, updateStream, mkChunk]
    rw [hstep, ih]
    simp [concatAll, String.append_assoc]

/-- C7: a generation whose stream is the chunks in arrival order
followed by done leaves the machine in the parameter-input view for the
synthetic `"AI Command"` recipe, its single field pre-filled with the
concatenation of all chunk payloads. -/
theorem C7_stream_reassembly (m : M) (cs : List String)
    (h : m.streamContent = "") :
    (consumeStream m (cs.map mkChunk ++ [mkDone])).view = .input ∧
    (consumeStream m (cs.map mkChunk ++ [mkDone])).inputs = [concatAll cs] ∧
    (consumeStream m (cs.map mkChunk ++ [mkDone])).recipeName =
      "AI Command" := by
  rw [consumeStream_chunks, h]
  simp [applyAiCompletion, String.empty_append]

/-- C7 witness: chunks `"ls "` then `"-la"` then done pre-fill the form
with `"ls -la"`. -/
theorem C7_witness :
    (consumeStream ⟨.generating, 0, 0, [], "", [], "", none, none, none, []⟩
        (["ls ", "-la"].map mkChunk ++ [mkDone])).inputs =
      [concatAll ["ls ", "-la"]] ∧
    concatAll ["ls ", "-la"] = "ls -la" :=
  ⟨(C7_stream_reassembly
      ⟨.generating, 0, 0, [], "", [], "", none, none, none, []⟩
      ["ls ", "-la"] rfl).2.1,
   by decide⟩

/-- C8: confirming in `ProviderSelect` with a resolvable credential
enters the loading state with a model-listing attempt in flight for the
chosen provider; a fetched model list then enters `ModelSelect`, while
the `list_models_failed` error enters `ModelInput`; with no resolvable
credential, confirming enters `ApiKeyInput` instead. -/
theorem C8_provider_confirm_flow (env : Env) (m : M)
    (h : m.view = .providerSelect) :
    (resolvedKey env m.providerIndex ≠ "" →
      (updateKey env m .enter).view = .generating ∧
      (updateKey env m .enter).pendingListModels =
        some (providerName m.providerIndex,
          resolvedKey env m.providerIndex)) ∧
    (∀ (m2 : M) (names : List String),
      (updateModelsFetched m2 names).view = .modelSelect) ∧
    (∀ m3 : M, (updateError m3 "list_models_failed").view = .modelInput) ∧
    (resolvedKey env m.providerIndex = "" →
      (updateKey env m .enter).view = .apiKeyInput) := by
  rcases m with ⟨v, fi, pi, inp, rn, rp, sc, er, fc, plm, mi⟩
  simp only at h
  subst h
  refine ⟨?_, ?_, ?_, ?_⟩
  · intro hk
    have hk' : resolvedKey env pi ≠ "" := hk
    constructor <;>
      simp [updateKey, updateKeyProviderSelect, if_neg hk']
  · intro m2 names
    rfl
  · intro m3
    simp [updateError]
  · intro hk
    have hk' : resolvedKey env pi = "" := hk
    simp [updateKey, updateKeyProviderSelect, hk']

/-- C8 witness: with only a config-file Google key the confirmation
starts a Google listing; with no key at all it opens the key input; the
two listing outcomes route to `ModelSelect` and `ModelInput`. -/
theorem C8_witness :
    (⟨.providerSelect, 0, 0, [], "", [], "", none, none, none, []⟩ : M).view =
      .providerSelect ∧
    (updateKey ⟨"", "", "file-key", ""⟩
        ⟨.providerSelect, 0, 0, [], "", [], "", none, none, none, []⟩
        .enter).pendingListModels = some ("google", "file-key") ∧
    (updateModelsFetched
        ⟨.generating, 0, 0, [], "", [], "", none, none, none, []⟩
        ["gemini-2.0-flash"]).view = .modelSelect ∧
    (updateError ⟨.generating, 0, 0, [], "", [], "", none, none, none, []⟩
        "list_models_failed").view = .modelInput ∧
    (updateKey ⟨"", "", "", ""⟩
        ⟨.providerSelect, 0, 0, [], "", [], "", none, none, none, []⟩
        .enter).view = .apiKeyInput :=
  ⟨rfl,
   ((C8_provider_confirm_flow ⟨"", "", "file-key", ""⟩
      ⟨.providerSelect, 0, 0, [], "", [], "", none, none, none, []⟩ rfl).1
      (by decide)).2,
   (C8_provider_confirm_flow ⟨"", "", "file-key", ""⟩
      ⟨.providerSelect, 0, 0, [], "", [], "", none, none, none, []⟩
      rfl).2.1 _ ["gemini-2.0-flash"],
   (C8_provider_confirm_flow ⟨"", "", "file-key", ""⟩
      ⟨.providerSelect, 0, 0, [], "", [], "", none, none, none, []⟩
      rfl).2.2.1 _,
   (C8_provider_confirm_flow ⟨"", "", "", ""⟩
      ⟨.providerSelect, 0, 0, [], "", [], "", none, none, none, []⟩
      rfl).2.2.2 (by decide)⟩

/-- C9: the focus index stays within `0 ≤ idx < count` under every
tab / shift+tab / up / down input; an advancing input at the last field
wraps to the first and a retreating input at the first wraps to the
last; enter on a non-last field advances the focus by exactly one (the
previously focused field is the one the index leaves) and does not
finalize the form; the four navigation keys act through the cycling
function. -/
theorem C9_focus_invariant_and_cycling :
    (∀ (r : Bool) (idx count : Int), 0 ≤ idx → idx < count →
      0 ≤ cycleFocus r idx count ∧ cycleFocus r idx count < count) ∧
    (∀ count : Int, 0 < count → cycleFocus false (count - 1) count = 0) ∧
    (∀ count : Int, 0 < count → cycleFocus true 0 count = count - 1) ∧
    (∀ (env : Env) (m : M), m.view = .input →
      m.focusIndex < (m.inputs.length : Int) - 1 →
      (updateKey env m .enter).focusIndex = m.focusIndex + 1 ∧
      (updateKey env m .enter).finalCmd = m.finalCmd) ∧
    (∀ (env : Env) (m : M), m.view = .input →
      (updateKey env m .tab).focusIndex =
        cycleFocus false m.focusIndex m.inputs.length ∧
      (updateKey env m .shiftTab).focusIndex =
        cycleFocus true m.focusIndex m.inputs.length ∧
      (updateKey env m .up).focusIndex =
        cycleFocus true m.focusIndex m.inputs.length ∧
      (updateKey env m .down).focusIndex =
        cycleFocus false m.focusIndex m.inputs.length) := by
  refine ⟨?_, ?_, ?_, ?_, ?_⟩
  · intro r idx count h0 h1
    cases r <;> simp [cycleFocus] <;> split_ifs <;> omega
  · intro count h
    simp [cycleFocus]
  · intro count h
    simp [cycleFocus]
    intro h'
    omega
  · intro env m hv hlt
    rcases m with ⟨v, fi, pi, inp, rn, rp, sc, er, fc, plm, mi⟩
    simp only at hv
    subst hv
    have hlt' : fi < (inp.length : Int) - 1 := hlt
    constructor <;> simp [updateKey, updateKeyInput, if_pos hlt']
  · intro env m hv
    rcases m with ⟨v, fi, pi, inp, rn, rp, sc, er, fc, plm, mi⟩
    simp only at hv
    subst hv
    refine ⟨rfl, rfl, rfl, rfl⟩

/-- C9 witness: a three-field form — bounds hold, tab at the last field
wraps to the first, shift+tab at the first wraps to the last, and enter
on field 0 advances to field 1 without finalizing. -/
theorem C9_witness :
    (0 ≤ (1 : Int) ∧ (1 : Int) < 3 ∧
      0 ≤ cycleFocus false 1 3 ∧ cycleFocus false 1 3 < 3) ∧
    cycleFocus false 2 3 = 0 ∧
    cycleFocus true 0 3 = 2 ∧
    ((⟨.input, 0, 0, ["", "", ""], "diff", [], "", none, none, none, []⟩ :
        M).focusIndex < ((["", "", ""] : List String).length : Int) - 1 ∧
      (updateKey ⟨"", "", "", ""⟩
        ⟨.input, 0, 0, ["", "", ""], "diff", [], "", none, none, none, []⟩
        .enter).focusIndex = 1 ∧
      (updateKey ⟨"", "", "", ""⟩
        ⟨.input, 0, 0, ["", "", ""], "diff", [], "", none, none, none, []⟩
        .enter).finalCmd = none) :=
  ⟨⟨by decide, by decide,
    (C9_focus_invariant_and_cycling.1 false 1 3 (by decide) (by decide)).1,
    (C9_focus_invariant_and_cycling.1 false 1 3 (by decide) (by decide)).2⟩,
   C9_focus_invariant_and_cycling.2.1 3 (by decide),
   C9_focus_invariant_and_cycling.2.2.1 3 (by decide),
   by decide,
   (C9_focus_invariant_and_cycling.2.2.2.1 ⟨"", "", "", ""⟩
      ⟨.input, 0, 0, ["", "", ""], "diff", [], "", none, none, none, []⟩
      rfl (by decide)).1,
   (C9_focus_invariant_and_cycling.2.2.2.1 ⟨"", "", "", ""⟩
      ⟨.input, 0, 0, ["", "", ""], "diff", [], "", none, none, none, []⟩
      rfl (by decide)).2⟩

/-- C10: finalization distinguishes the synthetic AI task from catalog
tasks only by the name comparison with `"AI Command"`: for every
parameter list and field values — including those of a real catalog
task of that name — a recipe named `"AI Command"` finalizes to
`["sh", "-c", first built argument]`, discarding every further argument
and never producing a `"just"` invocation. -/
theorem C10_ai_name_shell_invocation
    (name : String) (ps : List Parameter) (vs : List String)
    (a : String) (rest : List String)
    (hname : name = "AI Command") (hargs : buildArgs ps vs = a :: rest) :
    finalCmdFor name ps vs = some ["sh", "-c", a] := by
  subst hname
  simp [finalCmdFor, hargs]

/-- C10 witness: a catalog-style task named `"AI Command"` with two
singular parameters — the second argument is discarded. -/
theorem C10_witness :
    ("AI Command" : String) = "AI Command" ∧
    buildArgs [⟨"x", none, "singular"⟩, ⟨"y", none, "singular"⟩]
        ["echo hi", "junk"] = "echo hi" :: ["junk"] ∧
    finalCmdFor "AI Command"
        [⟨"x", none, "singular"⟩, ⟨"y", none, "singular"⟩]
        ["echo hi", "junk"] = some ["sh", "-c", "echo hi"] :=
  ⟨rfl, by decide,
   C10_ai_name_shell_invocation "AI Command"
     [⟨"x", none, "singular"⟩, ⟨"y", none, "singular"⟩]
     ["echo hi", "junk"] "echo hi" ["junk"] rfl (by decide)⟩

end JustDoIt
